import Mathlib

/-!
Shallow embedding of the Exa/OpenRouter answer pipes
(`functions/exa_openrouter_direct.py`, the citation collection of
`functions/exa_crewai_answer.py`, and
`functions/open_webui/utils/misc.py`), together with proofs of the
orchestration-loop, aggregator, formatter and composer properties.

Conventions of the embedding:
* Python dicts for chat messages become the `Msg` structure; a missing
  optional key becomes `none`.
* The result of `json.loads(tool_call["function"]["arguments"])` is
  modelled by `JsonArgs`: `invalid` stands for a payload on which
  `json.loads` raises, and `object q` for a decoded object whose
  `"query"` key holds `q` (`none` when the key is absent — the code
  reads no other key of the decoded object).
* The two Exa HTTP wrappers (`exa_answer_search`, `exa_context_search`)
  are external collaborators; an `Env` carries an oracle
  `invoke : name → query → (resultText, citations)` standing for their
  (non-throwing) outcome, plus the key valves and the two model
  responses returned by the OpenRouter transport.
* Network activity is reified: the run returns the list of model calls
  it performed (`ModelCall`, with its submitted messages and whether
  the tool catalog was attached) and the list of tool invocations
  dispatched, so that "no network call happened" is a statement about
  data.
* Python's truthiness test `not s or not s.strip()` is modelled by
  `s = "" ∨ pyStripEmpty s = true`, where `pyStripEmpty` checks that
  every character is Python whitespace.
-/

namespace ExaPipe

/-- Decoded form of a tool call's `arguments` payload: `invalid` when
`json.loads` raises, `object q` when it yields an object whose `query`
key is `q` (absent when `none`). -/
inductive JsonArgs where
  | invalid : JsonArgs
  | object : Option String → JsonArgs
deriving DecidableEq

/-- One tool-call request emitted by the model inside an assistant
message (`tool_call["id"]`, `tool_call["function"]["name"]`, and the
decoded `arguments`). -/
structure ToolCall where
  id : String
  name : String
  args : JsonArgs
deriving DecidableEq

/-- One chat message dict. `tool_call_id` is present only on tool-role
replies; `tool_calls` only on the assistant message that requested
tools. -/
structure Msg where
  role : String
  content : String
  tool_call_id : Option String := none
  tool_calls : List ToolCall := []
deriving DecidableEq

/-- One response message from the OpenRouter chat-completions endpoint:
`message.get("content", "")` and `message.get("tool_calls", [])`. -/
structure ModelResponse where
  content : String
  tool_calls : List ToolCall
deriving DecidableEq

/-- One Exa citation record; every field is read with `.get`, so each is
optional. -/
structure Citation where
  url : Option String := none
  title : Option String := none
  author : Option String := none
  publishedDate : Option String := none
  text : Option String := none
deriving DecidableEq

/-- Environment of one run: the two credential valves, the outcome
oracle for the Exa tool wrappers, and the two responses the OpenRouter
transport returns (first call with tools, second without). -/
structure Env where
  exaKeyPresent : Bool
  openrouterKeyPresent : Bool
  invoke : String → String → String × List Citation
  resp1 : ModelResponse
  resp2 : ModelResponse

/-- Record of one POST to `/chat/completions`: the message list
submitted and whether the tool catalog was attached. -/
structure ModelCall where
  messages : List Msg
  withTools : Bool
deriving DecidableEq

/-- Python whitespace characters as recognized by `str.strip()`. -/
def isPyWhitespace (c : Char) : Bool :=
  c = ' ' || c = '\t' || c = '\n' || c = '\r' || c = '\x0B' || c = '\x0C'

/-- Truth of Python's `not s.strip()`: the string contains no
non-whitespace character (the empty string included). -/
def pyStripEmpty (s : String) : Bool := s.data.all isPyWhitespace

/-- Representative `str(e)` for a `json.JSONDecodeError` raised by
`json.loads` on a malformed `arguments` payload. -/
def jsonDecodeErrorStr : String := "Expecting value: line 1 column 1 (char 0)"

/-- Representative `str(e)` for the `KeyError` raised by
`function_args["query"]` when the decoded object lacks the key. -/
def queryKeyErrorStr : String := "\x27query\x27"

/-- Tool-role reply message appended for one tool call
(`{"tool_call_id": id, "role": "tool", "content": content}`). -/
def toolReply (id : String) (content : String) : Msg :=
  { role := "tool", content := content, tool_call_id := some id, tool_calls := [] }

/-- Body of one iteration of the `for tool_call in tool_calls` loop of
`_call_openrouter_with_tools`: decode the arguments, dispatch on the
tool name, and either produce the tool-role reply together with the
citations extended onto `all_citations` and the Exa invocation
performed, or raise (`Except.error` carries `str(e)`). The two
recognized branches differ only in which Exa wrapper they call, which
the `Env.invoke` oracle indexes by name. -/
def processToolCall (env : Env) (tc : ToolCall) :
    Except String (Msg × List Citation × List (String × String)) :=
  match tc.args with
  | .invalid => .error jsonDecodeErrorStr
  | .object query =>
    if tc.name = "exa_answer_search" ∨ tc.name = "exa_context_search" then
      if env.exaKeyPresent = false then
        .ok (toolReply tc.id "Error: EXA_API_KEY not configured", [], [])
      else
        match query with
        | none => .error queryKeyErrorStr
        | some q => .ok (toolReply tc.id (env.invoke tc.name q).1,
                         (env.invoke tc.name q).2, [(tc.name, q)])
    else
      .ok (toolReply tc.id ("Unknown tool: " ++ tc.name), [], [])

/-- Outcome of the whole tool loop: the tool-role replies appended, the
citations extended onto `all_citations`, the Exa invocations dispatched
(all in loop order), and the exception that escaped the loop, if any. -/
structure ToolPhaseResult where
  toolMessages : List Msg
  citations : List Citation
  invocations : List (String × String)
  err : Option String
deriving DecidableEq

/-- Sequential processing of the model's tool calls, stopping at the
first request whose handling raises (everything appended before the
raise is kept, matching the in-place mutation of the Python lists). -/
def toolPhase (env : Env) : List ToolCall → ToolPhaseResult
  | [] => ⟨[], [], [], none⟩
  | tc :: rest =>
    match processToolCall env tc with
    | .error e => ⟨[], [], [], some e⟩
    | .ok (m, cs, invs) =>
      let r := toolPhase env rest
      ⟨m :: r.toolMessages, cs ++ r.citations, invs ++ r.invocations, r.err⟩

/-- Generic apology used by both empty-content fallbacks. -/
def apologyText : String :=
  "I apologize, but I couldn\x27t generate a response. Please try rephrasing your question."

/-- Citation-count summary of the fallback inside
`_call_openrouter_with_tools`. -/
def innerSummaryText (n : Nat) : String :=
  "Based on the search results I found, here\x27s what I can tell you about your query. I found " ++
    toString n ++ " relevant sources that should help answer your question."

/-- Citation-count summary of the fallback inside `Pipe.pipe`. -/
def pipeSummaryText (n : Nat) : String :=
  "Based on my search, I found " ++ toString n ++
    " relevant sources that should help answer your question."

/-- Empty-content fallback applied to the second model response inside
`_call_openrouter_with_tools`. -/
def innerFallback (text : String) (cits : List Citation) : String :=
  if text = "" ∨ pyStripEmpty text = true then
    if cits ≠ [] then innerSummaryText cits.length else apologyText
  else text

/-- Empty-content fallback applied once more inside `Pipe.pipe` before
yielding. -/
def pipeFallback (text : String) (cits : List Citation) : String :=
  if text = "" ∨ pyStripEmpty text = true then
    if cits ≠ [] then pipeSummaryText cits.length else apologyText
  else text

/-- Assistant message appended to the conversation when the first
response contains tool calls (the raw response message). -/
def assistantMsgOf (resp : ModelResponse) : Msg :=
  { role := "assistant", content := resp.content, tool_call_id := none,
    tool_calls := resp.tool_calls }

/-- Return record of `_call_openrouter_with_tools`: the result text and
citation list it returns, plus the reified model calls and Exa
invocations it performed. -/
structure CallResult where
  text : String
  citations : List Citation
  modelCalls : List ModelCall
  toolInvocations : List (String × String)
deriving DecidableEq

/-- Embedding of `_call_openrouter_with_tools`: first model call with
the tool catalog; if the response holds no tool calls, return its
content as is; otherwise append the assistant message, run the tool
loop, and either return the formatted error of the exception that
escaped it (with the citations accumulated so far) or make the second,
catalog-free model call and return its content after the empty-content
fallback. Only `resp2.content` is ever read from the second response. -/
def call_openrouter_with_tools (env : Env) (resp1 resp2 : ModelResponse)
    (messages : List Msg) (all_citations : List Citation) : CallResult :=
  let call1 : ModelCall := ⟨messages, true⟩
  if resp1.tool_calls = [] then
    ⟨resp1.content, all_citations, [call1], []⟩
  else
    let msgs1 := messages ++ [assistantMsgOf resp1]
    let tp := toolPhase env resp1.tool_calls
    match tp.err with
    | some e =>
      ⟨"Error: " ++ e, all_citations ++ tp.citations, [call1], tp.invocations⟩
    | none =>
      let cits := all_citations ++ tp.citations
      ⟨innerFallback resp2.content cits, cits,
       [call1, ⟨msgs1 ++ tp.toolMessages, false⟩], tp.invocations⟩

/-- Embedding of `pop_system_message` from
`open_webui/utils/misc.py`: keep the first system-role message, drop
every system-role message, preserve the order of the rest. -/
def pop_system_message : List Msg → Option Msg × List Msg
  | [] => (none, [])
  | m :: rest =>
    let r := pop_system_message rest
    if m.role = "system" then (some m, r.2) else (r.1, m :: r.2)

/-- Embedding of `_build_conversation_context`: fold over the history,
appending a `User:` or `Assistant:` block per message and skipping
other roles. -/
def build_conversation_context (messages : List Msg) : String :=
  messages.foldl
    (fun ctx m =>
      if m.role = "user" then ctx ++ ("User: " ++ m.content ++ "\n\n")
      else if m.role = "assistant" then ctx ++ ("Assistant: " ++ m.content ++ "\n\n")
      else ctx)
    "Previous conversation:\n\n"

/-- Per-message block of the conversation context (used to characterize
the fold). -/
def contextBlock (m : Msg) : String :=
  if m.role = "user" then "User: " ++ m.content ++ "\n\n"
  else if m.role = "assistant" then "Assistant: " ++ m.content ++ "\n\n"
  else ""

/-- Concatenation of the per-message blocks, in history order. -/
def contextBlocks : List Msg → String
  | [] => ""
  | m :: rest => contextBlock m ++ contextBlocks rest

/-- Tool-usage guidance appended after the summarized history in the
synthetic system message. -/
def toolGuidance : String :=
  "You have access to two search tools:\n" ++
  "- exa_answer_search: for general web queries and current events\n" ++
  "- exa_context_search: for coding questions, technical documentation, and code examples\n" ++
  "Choose the appropriate tool based on the question type. You can call tools multiple times if needed."

/-- Conversation-composition step of `Pipe.pipe`: with more than one
message left after popping the system message, replace the history by a
synthetic system message summarizing all but the last message, followed
by the last message alone. -/
def composeMessages (messages : List Msg) : List Msg :=
  if messages.length > 1 then
    let ctx := build_conversation_context (messages.dropLast)
    if ctx ≠ "" then
      [{ role := "system", content := ctx ++ "\n\n" ++ toolGuidance,
         tool_call_id := none, tool_calls := [] }] ++
        messages.drop (messages.length - 1)
    else messages
  else messages

/-- Request body handed to `Pipe.pipe` (`body.get("messages", [])`). -/
structure Body where
  messages : List Msg
deriving DecidableEq

/-- Network activity of one `Pipe.pipe` run. -/
structure PipeTrace where
  modelCalls : List ModelCall
  toolInvocations : List (String × String)
deriving DecidableEq

/-- Observable output of a `Pipe.pipe` run that did not raise: the
texts yielded to the caller and the citation list of the run. -/
structure PipeResult where
  yielded : List String
  citations : List Citation
deriving DecidableEq

/-- Embedding of `Pipe.pipe` of the direct pipe: validate the two keys
(raising `PipeExceptionError` before any network call when one is
absent), pop the system message, compose the submitted messages, run
`_call_openrouter_with_tools` with a fresh empty citation list, apply
the pipe-level empty-content fallback and yield the result. -/
def pipe (env : Env) (body : Body) : PipeTrace × Except String PipeResult :=
  if env.exaKeyPresent = false then
    (⟨[], []⟩, .error "EXA_API_KEY not provided in the valves.")
  else if env.openrouterKeyPresent = false then
    (⟨[], []⟩, .error "OPENROUTER_API_KEY not provided in the valves.")
  else
    let popped := pop_system_message body.messages
    let submitted := composeMessages popped.2
    let r := call_openrouter_with_tools env env.resp1 env.resp2 submitted []
    (⟨r.modelCalls, r.toolInvocations⟩,
     .ok ⟨[pipeFallback r.text r.citations], r.citations⟩)

/-- Metadata dict of one formatted source: the `source` key plus the
`author` and `publishedDate` keys, which are simply absent (`none`)
when not set. -/
structure MetaRec where
  source : String
  author : Option String := none
  publishedDate : Option String := none
deriving DecidableEq

/-- Inner `source` object of one formatted source. -/
structure SourceInfo where
  name : String
  type : String
  urls : List String
deriving DecidableEq

/-- One element of the list built by `_format_citations_as_sources`. -/
structure SourceRec where
  source : SourceInfo
  document : List String
  metadata : List MetaRec
deriving DecidableEq

/-- Body of one iteration of `_format_citations_as_sources` at 0-based
position `i`. -/
def formatCitation (i : Nat) (c : Citation) : SourceRec :=
  let url := c.url.getD ""
  let title := c.title.getD ("Source " ++ toString (i + 1))
  let author := c.author.getD ""
  let publishedDate := c.publishedDate.getD ""
  let meta : MetaRec :=
    { source := url,
      author := if author ≠ "" then some author else none,
      publishedDate := if publishedDate ≠ "" then some publishedDate else none }
  let text_content := c.text.getD ""
  { source := { name := "[" ++ toString (i + 1) ++ "] " ++ title,
                type := "web_search_results", urls := [url] },
    document := [if text_content ≠ "" then text_content.take 500
                 else "Click the link to view the content."],
    metadata := [meta] }

/-- Enumerated mapping step of the formatter, starting at index `i`. -/
def formatFrom (i : Nat) : List Citation → List SourceRec
  | [] => []
  | c :: rest => formatCitation i c :: formatFrom (i + 1) rest

/-- Embedding of `_format_citations_as_sources` (identical in both
pipes). -/
def format_citations_as_sources (cs : List Citation) : List SourceRec :=
  formatFrom 0 cs

/-- Attribute state left in a CrewAI tool after a sequence of
successful invocations `(toolName, citations)`: each success overwrites
`self._last_citations` of its tool, and `getattr(tool,
"_last_citations", [])` defaults to `[]` when the tool never ran. -/
def lastStoredCitations (name : String) (invs : List (String × List Citation)) :
    List Citation :=
  invs.foldl (fun acc p => if p.1 = name then p.2 else acc) []

/-- Citation collection of the CrewAI pipe (`exa_crewai_answer.py`,
after `crew.kickoff()`): concatenate the `_last_citations` attribute of
the answer tool and of the context tool. -/
def crewai_collect_citations (invs : List (String × List Citation)) : List Citation :=
  lastStoredCitations "exa_answer_search" invs ++
    lastStoredCitations "exa_context_search" invs

/-- Placeholder citation, used only as a `getD` default. -/
def defaultCitation : Citation := {}

/-- Placeholder formatted source, used only as a `getD` default. -/
def defaultSourceRec : SourceRec := formatCitation 0 defaultCitation

/-! Concrete sample inputs, used by the witness and counterexample
theorems below. -/

/-- Sample citation. -/
def citX : Citation := { url := some "https://x", title := some "X" }

/-- Second sample citation, distinct from `citX`. -/
def citY : Citation := { url := some "https://y", title := some "Y" }

/-- Well-formed request for the recognized answer tool. -/
def tcAnswer : ToolCall := ⟨"call_1", "exa_answer_search", .object (some "weather in Lisbon")⟩

/-- Request for an unrecognized tool with decodable arguments. -/
def tcUnknown : ToolCall := ⟨"call_2", "magic_tool", .object (some "q")⟩

/-- Request whose arguments payload is not valid JSON. -/
def tcBadArgs : ToolCall := ⟨"call_3", "exa_answer_search", .invalid⟩

/-- Request for an unrecognized tool whose decoded arguments lack the
`query` key. -/
def tcNoQueryUnknown : ToolCall := ⟨"call_9", "magic_tool", .object none⟩

/-- First model response requesting two tool calls. -/
def respTools : ModelResponse := ⟨"", [tcAnswer, tcUnknown]⟩

/-- First model response requesting only the malformed-arguments
call. -/
def respBad : ModelResponse := ⟨"", [tcBadArgs]⟩

/-- First model response requesting only the unknown tool without a
`query` key. -/
def respNoQueryUnknown : ModelResponse := ⟨"", [tcNoQueryUnknown]⟩

/-- Second model response with plain text. -/
def respFinal : ModelResponse := ⟨"Sunny in Lisbon.", []⟩

/-- First model response with plain text and no tool calls. -/
def respPlain : ModelResponse := ⟨"Hello there.", []⟩

/-- Environment with both keys present and a run that uses tools. -/
def envA : Env := ⟨true, true, fun _ _ => ("It is sunny.", [citX]), respTools, respFinal⟩

/-- Environment with both keys present and a plain-text first
response. -/
def envPlain : Env := ⟨true, true, fun _ _ => ("It is sunny.", [citX]), respPlain, respFinal⟩

/-- Environment whose Exa key is absent. -/
def envNoExa : Env := ⟨false, true, fun _ _ => ("It is sunny.", [citX]), respPlain, respFinal⟩

/-- Sample request body with a system message and three history
turns. -/
def bodyW : Body :=
  ⟨[⟨"system", "be nice", none, []⟩, ⟨"user", "hi", none, []⟩,
    ⟨"assistant", "hello", none, []⟩, ⟨"user", "weather?", none, []⟩]⟩

/-- Sample request body with a single user message. -/
def bodyOne : Body := ⟨[⟨"user", "hi", none, []⟩]⟩

/-- Sample popped history with three turns. -/
def msW : List Msg :=
  [⟨"user", "hi", none, []⟩, ⟨"assistant", "hello", none, []⟩, ⟨"user", "weather?", none, []⟩]

/-! Helper lemmas about the tool loop. -/

/-- Whenever one loop iteration completes without raising, the message
it appends is a tool-role reply correlated to the request's id, and the
citations it extends are exactly those of the Exa invocations it
performed (in order). -/
theorem processToolCall_ok_shape (env : Env) (tc : ToolCall) (m : Msg)
    (cs : List Citation) (invs : List (String × String))
    (h : processToolCall env tc = .ok (m, cs, invs)) :
    m.role = "tool" ∧ m.tool_call_id = some tc.id ∧
      cs = (invs.map (fun p => (env.invoke p.1 p.2).2)).flatten := by
  unfold processToolCall at h
  split at h
  · simp at h
  · split at h
    · split at h
      · simp only [Except.ok.injEq, Prod.mk.injEq] at h
        obtain ⟨h1, h2, h3⟩ := h
        subst h1; subst h2; subst h3
        exact ⟨rfl, rfl, rfl⟩
      · split at h
        · simp at h
        · simp only [Except.ok.injEq, Prod.mk.injEq] at h
          obtain ⟨h1, h2, h3⟩ := h
          subst h1; subst h2; subst h3
          exact ⟨rfl, rfl, by simp⟩
    · simp only [Except.ok.injEq, Prod.mk.injEq] at h
      obtain ⟨h1, h2, h3⟩ := h
      subst h1; subst h2; subst h3
      exact ⟨rfl, rfl, rfl⟩

/-- When the tool loop completes without raising, it appends exactly
one tool-role reply per request, with matching `tool_call_id`, in the
order of the requests. -/
theorem toolPhase_correlation (env : Env) (tcs : List ToolCall)
    (h : (toolPhase env tcs).err = none) :
    (toolPhase env tcs).toolMessages.map (fun m => (m.role, m.tool_call_id)) =
      tcs.map (fun tc => ("tool", some tc.id)) := by
  induction tcs with
  | nil => simp [toolPhase]
  | cons tc rest ih =>
    unfold toolPhase at h ⊢
    cases hp : processToolCall env tc with
    | error e => rw [hp] at h; simp at h
    | ok x =>
      obtain ⟨m, cs, invs⟩ := x
      rw [hp] at h
      dsimp only at h ⊢
      have hs := processToolCall_ok_shape env tc m cs invs hp
      simp only [List.map_cons, hs.1, hs.2.1]
      have hrest := ih h
      simp [hrest]

/-- The citations accumulated by the tool loop are the concatenation of
the citation lists returned by its Exa invocations, in dispatch order
(this also holds for a loop cut short by an exception). -/
theorem toolPhase_citations_flatten (env : Env) (tcs : List ToolCall) :
    (toolPhase env tcs).citations =
      ((toolPhase env tcs).invocations.map (fun p => (env.invoke p.1 p.2).2)).flatten := by
  induction tcs with
  | nil => simp [toolPhase]
  | cons tc rest ih =>
    unfold toolPhase
    cases hp : processToolCall env tc with
    | error e => simp
    | ok x =>
      obtain ⟨m, cs, invs⟩ := x
      have hs := processToolCall_ok_shape env tc m cs invs hp
      dsimp only
      simp only [List.map_append, List.flatten_append]
      rw [ih, hs.2.2]

/-- The first model call of `_call_openrouter_with_tools` always
submits the given messages together with the tool catalog. -/
theorem call_head (env : Env) (resp1 resp2 : ModelResponse)
    (messages : List Msg) (all_citations : List Citation) :
    (call_openrouter_with_tools env resp1 resp2 messages all_citations).modelCalls.head? =
      some ⟨messages, true⟩ := by
  unfold call_openrouter_with_tools
  by_cases h : resp1.tool_calls = []
  · simp [h]
  · simp only [if_neg h]
    cases (toolPhase env resp1.tool_calls).err <;> simp

/-! Helper lemmas about Python-style blank tests and the fallbacks. -/

/-- Concatenation distributes over the all-whitespace test. -/
theorem pyStripEmpty_append (s t : String) :
    pyStripEmpty (s ++ t) = (pyStripEmpty s && pyStripEmpty t) := by
  simp [pyStripEmpty, String.data_append, List.all_append]

/-- The citation-count summary of the pipe-level fallback is never
blank. -/
theorem pipeSummaryText_not_blank (n : Nat) : pyStripEmpty (pipeSummaryText n) = false := by
  unfold pipeSummaryText
  rw [pyStripEmpty_append, pyStripEmpty_append]
  have h : pyStripEmpty "Based on my search, I found " = false := by decide
  simp [h]

/-- The citation-count summary of the inner fallback is never blank. -/
theorem innerSummaryText_not_blank (n : Nat) : pyStripEmpty (innerSummaryText n) = false := by
  unfold innerSummaryText
  rw [pyStripEmpty_append, pyStripEmpty_append]
  have h : pyStripEmpty "Based on the search results I found, here\x27s what I can tell you about your query. I found " = false := by decide
  simp [h]

/-- Output of the pipe-level empty-content fallback is never blank. -/
theorem pipeFallback_not_blank (t : String) (cits : List Citation) :
    pyStripEmpty (pipeFallback t cits) = false := by
  unfold pipeFallback
  by_cases h : t = "" ∨ pyStripEmpty t = true
  · rw [if_pos h]
    by_cases hc : cits ≠ []
    · rw [if_pos hc]; exact pipeSummaryText_not_blank _
    · rw [if_neg hc]; decide
  · rw [if_neg h]
    push_neg at h
    simpa using h.2

/-! Helper lemmas about the conversation composer. -/

/-- The context fold equals its seed followed by one block per
message. -/
theorem build_context_eq_blocks_from (messages : List Msg) (s : String) :
    messages.foldl
      (fun ctx m =>
        if m.role = "user" then ctx ++ ("User: " ++ m.content ++ "\n\n")
        else if m.role = "assistant" then ctx ++ ("Assistant: " ++ m.content ++ "\n\n")
        else ctx)
      s = s ++ contextBlocks messages := by
  induction messages generalizing s with
  | nil => simp [contextBlocks, String.append_empty]
  | cons m rest ih =>
    simp only [List.foldl_cons, contextBlocks]
    by_cases hu : m.role = "user"
    · rw [if_pos hu, ih, contextBlock, if_pos hu, String.append_assoc]
    · by_cases ha : m.role = "assistant"
      · rw [if_neg hu, if_pos ha, ih, contextBlock, if_neg hu, if_pos ha,
          String.append_assoc]
      · rw [if_neg hu, if_neg ha, ih, contextBlock, if_neg hu, if_neg ha,
          String.empty_append]

/-- The conversation context is the fixed heading followed by the
`User:` / `Assistant:` blocks in history order. -/
theorem build_context_eq_blocks (messages : List Msg) :
    build_conversation_context messages =
      "Previous conversation:\n\n" ++ contextBlocks messages :=
  build_context_eq_blocks_from messages "Previous conversation:\n\n"

/-- A string starting with the context heading is never empty. -/
theorem build_context_ne_empty (messages : List Msg) :
    build_conversation_context messages ≠ "" := by
  rw [build_context_eq_blocks]
  intro hcon
  have hd : ("Previous conversation:\n\n" ++ contextBlocks messages).data = [] := by
    rw [hcon]
  rw [String.data_append] at hd
  have := (List.append_eq_nil.mp hd).1
  exact absurd this (by decide)

/-- Dropping all but the last element of a list with a last element
leaves exactly that element. -/
theorem drop_length_sub_one_eq_getLast (l : List Msg) (last : Msg)
    (h : l.getLast? = some last) : l.drop (l.length - 1) = [last] := by
  induction l with
  | nil => simp at h
  | cons a rest ih =>
    cases rest with
    | nil =>
      simp only [List.getLast?_singleton, Option.some.injEq] at h
      simp [h]
    | cons b rest2 =>
      rw [List.getLast?_cons_cons] at h
      have := ih h
      simpa [List.length_cons, Nat.succ_sub_one] using this

/-- The context built from a history equals the context built from its
user/assistant messages only: other roles contribute nothing. -/
theorem build_context_filter_user_assistant (messages : List Msg) :
    build_conversation_context
        (messages.filter (fun m => m.role == "user" || m.role == "assistant")) =
      build_conversation_context messages := by
  rw [build_context_eq_blocks, build_context_eq_blocks]
  congr 1
  induction messages with
  | nil => rfl
  | cons m rest ih =>
    by_cases hu : m.role = "user"
    · rw [List.filter_cons_of_pos (by simp [hu])]
      simp only [contextBlocks, ih]
    · by_cases ha : m.role = "assistant"
      · rw [List.filter_cons_of_pos (by simp [ha])]
        simp only [contextBlocks, ih]
      · rw [List.filter_cons_of_neg (by simp [hu, ha])]
        simp only [contextBlocks, contextBlock, if_neg hu, if_neg ha, ih,
          String.empty_append]

/-! Helper lemmas about `pop_system_message`. -/

/-- The extracted message is the first system-role message of the
input. -/
theorem pop_system_message_fst (ms : List Msg) :
    (pop_system_message ms).1 = ms.find? (fun m => m.role == "system") := by
  induction ms with
  | nil => rfl
  | cons m rest ih =>
    unfold pop_system_message
    by_cases h : m.role = "system"
    · rw [if_pos h, List.find?_cons_of_pos _ (by simp [h])]
    · rw [if_neg h, List.find?_cons_of_neg _ (by simp [h])]
      exact ih

/-- The remaining messages are the non-system messages, in order. -/
theorem pop_system_message_snd (ms : List Msg) :
    (pop_system_message ms).2 = ms.filter (fun m => m.role != "system") := by
  induction ms with
  | nil => rfl
  | cons m rest ih =>
    unfold pop_system_message
    by_cases h : m.role = "system"
    · rw [if_pos h, List.filter_cons_of_neg (by simp [h])]
      exact ih
    · rw [if_neg h, List.filter_cons_of_pos (by simp [h])]
      simp [ih]

/-- No message surviving `pop_system_message` has the system role. -/
theorem pop_system_message_no_system (ms : List Msg) (m : Msg)
    (hm : m ∈ (pop_system_message ms).2) : ¬ m.role = "system" := by
  rw [pop_system_message_snd] at hm
  have := List.of_mem_filter hm
  simpa using this

/-! Helper lemmas about the formatter. -/

/-- Length of the enumerated mapping. -/
theorem formatFrom_length (cs : List Citation) (j : Nat) :
    (formatFrom j cs).length = cs.length := by
  induction cs generalizing j with
  | nil => rfl
  | cons c rest ih => simp [formatFrom, ih]

/-- Element `i` of the enumerated mapping started at `j` is the body
applied at index `j + i` to element `i` of the input. -/
theorem formatFrom_getD (cs : List Citation) (j i : Nat) (h : i < cs.length) :
    (formatFrom j cs).getD i defaultSourceRec =
      formatCitation (j + i) (cs.getD i defaultCitation) := by
  induction cs generalizing i j with
  | nil => simp at h
  | cons c rest ih =>
    cases i with
    | zero => simp [formatFrom]
    | succ i =>
      simp only [formatFrom, List.getD_cons_succ]
      rw [ih _ _ (by simpa using h)]
      congr 1
      omega

/-! Helper lemma about the CrewAI per-tool citation attribute. -/

/-- The attribute fold keeps the citations of the last matching
invocation (or the seed when none matches). -/
theorem lastStored_eq_getLast (name : String)
    (invs : List (String × List Citation)) (a : List Citation) :
    invs.foldl (fun acc p => if p.1 = name then p.2 else acc) a =
      (((invs.filter (fun p => p.1 == name)).getLast?).map Prod.snd).getD a := by
  induction invs generalizing a with
  | nil => rfl
  | cons p rest ih =>
    simp only [List.foldl_cons]
    by_cases h : p.1 = name
    · rw [if_pos h, ih, List.filter_cons_of_pos (by simp [h])]
      cases hf : rest.filter (fun p => p.1 == name) with
      | nil => simp
      | cons x xs =>
        rw [List.getLast?_cons_cons]
        cases hxl : (x :: xs).getLast? with
        | none => simp [List.getLast?_eq_none_iff] at hxl
        | some y => simp [hxl]
    · rw [if_neg h, ih, List.filter_cons_of_neg (by simp [h])]

/-- A non-blank string is in particular non-empty. -/
theorem pipeFallback_ne_empty (t : String) (cits : List Citation) :
    pipeFallback t cits ≠ "" := by
  intro h
  have hnb := pipeFallback_not_blank t cits
  rw [h] at hnb
  exact absurd hnb (by decide)

/-- When an earlier prefix of the tool loop completes and the next
request raises `e`, the loop over the whole list keeps exactly the
prefix's replies, citations and invocations and reports `e`. -/
theorem toolPhase_append_error (env : Env) (pre : List ToolCall) (tc : ToolCall)
    (post : List ToolCall) (e : String)
    (hpre : (toolPhase env pre).err = none)
    (htc : processToolCall env tc = .error e) :
    toolPhase env (pre ++ tc :: post) =
      ⟨(toolPhase env pre).toolMessages, (toolPhase env pre).citations,
       (toolPhase env pre).invocations, some e⟩ := by
  induction pre with
  | nil =>
    simp only [List.nil_append]
    unfold toolPhase
    rw [htc]
  | cons p rest ih =>
    simp only [List.cons_append]
    unfold toolPhase at hpre ⊢
    cases hp : processToolCall env p with
    | error e2 => rw [hp] at hpre; simp at hpre
    | ok x =>
      obtain ⟨m, cs, invs⟩ := x
      rw [hp] at hpre
      dsimp only at hpre ⊢
      rw [ih hpre]

/-! The claims. -/

/-- C1: in a run whose first model response contains tool-call requests
and whose tool loop completes without raising (argument-decode failure
is settled by `decode_failure_fatal`), the run makes exactly two model
calls; the second submits the original messages, the assistant message,
and — appended before that second call — exactly one tool-role reply
per request, each carrying a `tool_call_id` equal to that request's id,
in the same relative order as the requests. -/
theorem toolphase_reply_correlation (env : Env) (resp1 resp2 : ModelResponse)
    (messages : List Msg) (all_citations : List Citation)
    (hT : resp1.tool_calls ≠ [])
    (hOK : (toolPhase env resp1.tool_calls).err = none) :
    (call_openrouter_with_tools env resp1 resp2 messages all_citations).modelCalls =
      [⟨messages, true⟩,
       ⟨(messages ++ [assistantMsgOf resp1]) ++ (toolPhase env resp1.tool_calls).toolMessages,
        false⟩] ∧
    (toolPhase env resp1.tool_calls).toolMessages.map (fun m => (m.role, m.tool_call_id)) =
      resp1.tool_calls.map (fun tc => ("tool", some tc.id)) := by
  constructor
  · unfold call_openrouter_with_tools
    rw [if_neg hT]
    dsimp only
    rw [hOK]
  · exact toolPhase_correlation env resp1.tool_calls hOK

/-- Witness for the reply-correlation theorem: a concrete run with a
recognized and an unknown tool call gets exactly the two correlated
tool replies, in request order. -/
theorem toolphase_reply_correlation_witness :
    (toolPhase envA respTools.tool_calls).toolMessages.map (fun m => (m.role, m.tool_call_id)) =
      [("tool", some "call_1"), ("tool", some "call_2")] := by
  have h := (toolphase_reply_correlation envA respTools respFinal [] []
    (by decide) (by decide)).2
  rw [h]
  decide

/-- C2 counterexample: in the CrewAI pipe, a run with two
`exa_answer_search` invocations returning `[citX]` then `[citY]`
collects only `[citY]` — the per-tool `_last_citations` attribute is
overwritten on each invocation, so the accumulated list is not the
concatenation `[citX] ++ [citY]`. -/
theorem citation_concat_counterexample :
    crewai_collect_citations
        [("exa_answer_search", [citX]), ("exa_answer_search", [citY])] = [citY] ∧
    ¬ crewai_collect_citations
        [("exa_answer_search", [citX]), ("exa_answer_search", [citY])] =
      [citX] ++ [citY] := by
  constructor
  · decide
  · decide

/-- C2 amended: in the direct pipe the run's accumulated citation list
is exactly the initial accumulator followed by the concatenation of the
citation lists returned by its Exa invocations in dispatch order — no
reordering, no deduplication, duplicates kept; in the CrewAI pipe the
collected list is instead the citations of the last `exa_answer_search`
invocation followed by those of the last `exa_context_search`
invocation (empty for a tool never invoked). -/
theorem citation_aggregation (env : Env) (resp1 resp2 : ModelResponse)
    (messages : List Msg) (all_citations : List Citation)
    (invs : List (String × List Citation)) :
    (call_openrouter_with_tools env resp1 resp2 messages all_citations).citations =
      all_citations ++
        ((call_openrouter_with_tools env resp1 resp2 messages
            all_citations).toolInvocations.map (fun p => (env.invoke p.1 p.2).2)).flatten ∧
    crewai_collect_citations invs =
      (((invs.filter (fun p => p.1 == "exa_answer_search")).getLast?).map Prod.snd).getD [] ++
        (((invs.filter (fun p => p.1 == "exa_context_search")).getLast?).map Prod.snd).getD [] := by
  constructor
  · unfold call_openrouter_with_tools
    by_cases hT : resp1.tool_calls = []
    · simp [hT]
    · rw [if_neg hT]
      dsimp only
      cases he : (toolPhase env resp1.tool_calls).err with
      | some e => dsimp only; rw [toolPhase_citations_flatten]
      | none => dsimp only; rw [toolPhase_citations_flatten]
  · unfold crewai_collect_citations lastStoredCitations
    rw [lastStored_eq_getLast, lastStored_eq_getLast]

/-- C3: a run of the direct pipe that completes without raising never
yields an empty or whitespace-only final text: blank extracted text is
replaced by the citation-count summary when citations were accumulated
and by the generic apology otherwise, and both substitutes are
non-blank. -/
theorem final_text_never_blank (env : Env) (body : Body) (res : PipeResult)
    (t : String) (hok : (pipe env body).2 = Except.ok res) (ht : t ∈ res.yielded) :
    t ≠ "" ∧ pyStripEmpty t = false := by
  unfold pipe at hok
  by_cases h1 : env.exaKeyPresent = false
  · rw [if_pos h1] at hok; simp at hok
  · rw [if_neg h1] at hok
    by_cases h2 : env.openrouterKeyPresent = false
    · rw [if_pos h2] at hok; simp at hok
    · rw [if_neg h2] at hok
      dsimp only at hok
      simp only [Except.ok.injEq] at hok
      subst hok
      simp only [List.mem_singleton] at ht
      subst ht
      exact ⟨pipeFallback_ne_empty _ _, pipeFallback_not_blank _ _⟩

/-- Witness for the non-blank final text theorem at a concrete
completed run. -/
theorem final_text_never_blank_witness :
    ("Hello there." : String) ≠ "" ∧ pyStripEmpty "Hello there." = false :=
  final_text_never_blank envPlain bodyOne ⟨["Hello there."], []⟩ "Hello there."
    (by rfl) (by decide)

/-- C4: a decodable tool-call request whose name is unrecognized, or
whose Exa credential is absent, is non-fatal: the loop synthesizes an
error-description string, appends it as that request's tool-role reply
(correlated by id exactly like a normal result), adds no citations and
dispatches no Exa invocation for it, and continues with the remaining
requests — the loop outcome for the rest, including whether the second
model call happens, is unchanged. -/
theorem tool_error_non_fatal (env : Env) (tc : ToolCall) (rest : List ToolCall)
    (q : Option String) (hargs : tc.args = .object q)
    (hbad : (¬ tc.name = "exa_answer_search" ∧ ¬ tc.name = "exa_context_search") ∨
            env.exaKeyPresent = false) :
    processToolCall env tc =
      .ok (toolReply tc.id
            (if tc.name = "exa_answer_search" ∨ tc.name = "exa_context_search"
             then "Error: EXA_API_KEY not configured"
             else "Unknown tool: " ++ tc.name), [], []) ∧
    toolPhase env (tc :: rest) =
      ⟨toolReply tc.id
          (if tc.name = "exa_answer_search" ∨ tc.name = "exa_context_search"
           then "Error: EXA_API_KEY not configured"
           else "Unknown tool: " ++ tc.name) :: (toolPhase env rest).toolMessages,
       (toolPhase env rest).citations, (toolPhase env rest).invocations,
       (toolPhase env rest).err⟩ := by
  have hp : processToolCall env tc =
      .ok (toolReply tc.id
            (if tc.name = "exa_answer_search" ∨ tc.name = "exa_context_search"
             then "Error: EXA_API_KEY not configured"
             else "Unknown tool: " ++ tc.name), [], []) := by
    unfold processToolCall
    rw [hargs]
    by_cases hname : tc.name = "exa_answer_search" ∨ tc.name = "exa_context_search"
    · rcases hbad with ⟨hb1, hb2⟩ | hkey
      · exact absurd hname (by tauto)
      · dsimp only
        rw [if_pos hname, if_pos hkey, if_pos hname]
    · dsimp only
      rw [if_neg hname, if_neg hname]
  refine ⟨hp, ?_⟩
  simp only [toolPhase, hp, List.nil_append]

/-- Witness for the non-fatal tool error theorem: the concrete unknown
tool gets its synthesized error reply. -/
theorem tool_error_non_fatal_witness :
    processToolCall envA tcUnknown =
      .ok (toolReply tcUnknown.id
            (if tcUnknown.name = "exa_answer_search" ∨ tcUnknown.name = "exa_context_search"
             then "Error: EXA_API_KEY not configured"
             else "Unknown tool: " ++ tcUnknown.name), [], []) :=
  (tool_error_non_fatal envA tcUnknown [] (some "q") rfl (Or.inl (by decide))).1

/-- C5: with either required credential absent, the run aborts before
any network activity: no model call is made, no tool is invoked, and
the outcome is a raised error rather than any yielded text. -/
theorem missing_key_aborts (env : Env) (body : Body)
    (h : env.exaKeyPresent = false ∨ env.openrouterKeyPresent = false) :
    (pipe env body).1.modelCalls = [] ∧
    (pipe env body).1.toolInvocations = [] ∧
    ∃ msg, (pipe env body).2 = Except.error msg := by
  unfold pipe
  rcases h with h | h
  · rw [if_pos h]
    exact ⟨rfl, rfl, _, rfl⟩
  · by_cases h1 : env.exaKeyPresent = false
    · rw [if_pos h1]
      exact ⟨rfl, rfl, _, rfl⟩
    · rw [if_neg h1, if_pos h]
      exact ⟨rfl, rfl, _, rfl⟩

/-- Witness for the missing-credential abort theorem at a concrete
environment without an Exa key. -/
theorem missing_key_aborts_witness :
    (pipe envNoExa bodyOne).1.modelCalls = [] ∧
    (pipe envNoExa bodyOne).1.toolInvocations = [] ∧
    ∃ msg, (pipe envNoExa bodyOne).2 = Except.error msg :=
  missing_key_aborts envNoExa bodyOne (Or.inl rfl)

/-- C6: the conversation context is the fixed heading followed by one
`User:` / `Assistant:` block per prior message in chronological order;
when more than one message remains after popping the system message,
the submitted sequence is exactly the synthetic system message (that
summary plus the tool-usage guidance) followed by the current (last)
message, prior raw messages not being forwarded; with at most one
message, the messages are forwarded unmodified; and the first model
call of a run submits exactly this composed sequence. -/
theorem conversation_composer_spec (ms : List Msg) :
    build_conversation_context ms = "Previous conversation:\n\n" ++ contextBlocks ms ∧
    (ms.length ≤ 1 → composeMessages ms = ms) ∧
    (∀ last, ms.getLast? = some last → 1 < ms.length →
      composeMessages ms =
        [{ role := "system",
           content := build_conversation_context ms.dropLast ++ "\n\n" ++ toolGuidance,
           tool_call_id := none, tool_calls := [] }, last]) ∧
    (∀ env body, env.exaKeyPresent = true → env.openrouterKeyPresent = true →
      (pipe env body).1.modelCalls.head? =
        some ⟨composeMessages (pop_system_message body.messages).2, true⟩) := by
  refine ⟨build_context_eq_blocks ms, ?_, ?_, ?_⟩
  · intro hle
    unfold composeMessages
    rw [if_neg (by omega)]
  · intro last hlast hlen
    unfold composeMessages
    rw [if_pos hlen]
    dsimp only
    rw [if_pos (build_context_ne_empty ms.dropLast)]
    rw [drop_length_sub_one_eq_getLast ms last hlast]
    rfl
  · intro env body h1 h2
    unfold pipe
    rw [if_neg (by simp [h1]), if_neg (by simp [h2])]
    exact call_head env env.resp1 env.resp2 _ []

/-- Witness for the composer theorem: a three-message history composes
to the synthetic system message plus the last message, and the first
model call of a concrete run submits the composed sequence. -/
theorem conversation_composer_spec_witness :
    composeMessages msW =
      [{ role := "system",
         content := build_conversation_context msW.dropLast ++ "\n\n" ++ toolGuidance,
         tool_call_id := none, tool_calls := [] }, ⟨"user", "weather?", none, []⟩] ∧
    (pipe envPlain bodyW).1.modelCalls.head? =
      some ⟨composeMessages (pop_system_message bodyW.messages).2, true⟩ :=
  ⟨(conversation_composer_spec msW).2.2.1 ⟨"user", "weather?", none, []⟩ (by decide)
      (by decide),
   (conversation_composer_spec msW).2.2.2 envPlain bodyW rfl rfl⟩

/-- C7: the source formatter preserves length and input position, is
deterministic, and maps the citation at 0-based position `i` to a
record whose display name is the title prefixed with the 1-based index
(title defaulting to `Source (i+1)`), whose url list is the singleton
of the citation's url, whose document preview is the first 500
characters of `text` or the fixed fallback sentence, and whose
metadata holds `source := url` plus `author` and `publishedDate` only
when those fields are present and non-empty — omitted, never null. -/
theorem formatter_spec (cs : List Citation) (i : Nat) (h : i < cs.length) :
    (format_citations_as_sources cs).length = cs.length ∧
    (∀ cs2, cs = cs2 → format_citations_as_sources cs = format_citations_as_sources cs2) ∧
    ((format_citations_as_sources cs).getD i defaultSourceRec).source.name =
      "[" ++ toString (i + 1) ++ "] " ++
        (cs.getD i defaultCitation).title.getD ("Source " ++ toString (i + 1)) ∧
    ((format_citations_as_sources cs).getD i defaultSourceRec).source.urls =
      [(cs.getD i defaultCitation).url.getD ""] ∧
    ((format_citations_as_sources cs).getD i defaultSourceRec).document =
      [if (cs.getD i defaultCitation).text.getD "" ≠ "" then
          ((cs.getD i defaultCitation).text.getD "").take 500
        else "Click the link to view the content."] ∧
    ((format_citations_as_sources cs).getD i defaultSourceRec).metadata =
      [{ source := (cs.getD i defaultCitation).url.getD "",
         author := if (cs.getD i defaultCitation).author.getD "" ≠ "" then
             some ((cs.getD i defaultCitation).author.getD "") else none,
         publishedDate := if (cs.getD i defaultCitation).publishedDate.getD "" ≠ "" then
             some ((cs.getD i defaultCitation).publishedDate.getD "") else none }] := by
  have hg : (format_citations_as_sources cs).getD i defaultSourceRec =
      formatCitation i (cs.getD i defaultCitation) := by
    unfold format_citations_as_sources
    rw [formatFrom_getD cs 0 i h, Nat.zero_add]
  refine ⟨formatFrom_length cs 0, fun cs2 hcs => by rw [hcs], ?_, ?_, ?_, ?_⟩
  · rw [hg]; rfl
  · rw [hg]; rfl
  · rw [hg]; rfl
  · rw [hg]; rfl

/-- Witness for the formatter theorem at a concrete two-citation
list. -/
theorem formatter_spec_witness :
    (format_citations_as_sources [citX, citY]).length = ([citX, citY] : List Citation).length :=
  (formatter_spec [citX, citY] 1 (by decide)).1

/-- C8: a run performs at most two model calls; a second model call,
when present, submits without the tool catalog; and the run's entire
outcome is invariant under any replacement of the second response's
tool calls — only the second response's content is consumed, so tool
requests in it are ignored as plain text and no third call can arise
from them. -/
theorem at_most_two_model_calls (env : Env) (resp1 resp2 : ModelResponse)
    (messages : List Msg) (all_citations : List Citation) (tcs2 : List ToolCall) :
    (call_openrouter_with_tools env resp1 resp2 messages all_citations).modelCalls.length ≤ 2 ∧
    ((call_openrouter_with_tools env resp1 resp2 messages all_citations).modelCalls.getD 1
        ⟨[], false⟩).withTools = false ∧
    call_openrouter_with_tools env resp1 ⟨resp2.content, tcs2⟩ messages all_citations =
      call_openrouter_with_tools env resp1 resp2 messages all_citations := by
  unfold call_openrouter_with_tools
  by_cases hT : resp1.tool_calls = []
  · simp [hT]
  · rw [if_neg hT]
    dsimp only
    cases he : (toolPhase env resp1.tool_calls).err with
    | some e => exact ⟨by simp, by simp, rfl⟩
    | none => exact ⟨by simp, by simp, rfl⟩

/-- C9: `pop_system_message` extracts the first system-role message and
returns the input minus every system-role entry with the order of the
rest preserved; the conversation summary depends only on the user and
assistant messages; and in any run the only system-role message among
those submitted to the first model call is the synthetic context
message — the extracted system message is discarded, not forwarded. -/
theorem system_message_stripped (ms : List Msg) :
    (pop_system_message ms).1 = ms.find? (fun m => m.role == "system") ∧
    (pop_system_message ms).2 = ms.filter (fun m => m.role != "system") ∧
    (∀ m ∈ (pop_system_message ms).2, ¬ m.role = "system") ∧
    build_conversation_context
        (ms.filter (fun m => m.role == "user" || m.role == "assistant")) =
      build_conversation_context ms ∧
    (∀ env body c, env.exaKeyPresent = true → env.openrouterKeyPresent = true →
      (pipe env body).1.modelCalls.head? = some c →
      ∀ m ∈ c.messages, m.role = "system" →
        m = { role := "system",
              content := build_conversation_context
                  ((pop_system_message body.messages).2).dropLast ++ "\n\n" ++ toolGuidance,
              tool_call_id := none, tool_calls := [] }) := by
  refine ⟨pop_system_message_fst ms, pop_system_message_snd ms,
    fun m hm => pop_system_message_no_system ms m hm,
    build_context_filter_user_assistant ms, ?_⟩
  intro env body c h1 h2 hc m hm hrole
  have hhead : (pipe env body).1.modelCalls.head? =
      some ⟨composeMessages (pop_system_message body.messages).2, true⟩ := by
    unfold pipe
    rw [if_neg (by simp [h1]), if_neg (by simp [h2])]
    exact call_head env env.resp1 env.resp2 _ []
  rw [hhead] at hc
  simp only [Option.some.injEq] at hc
  subst hc
  simp only at hm
  unfold composeMessages at hm
  by_cases hlen : (pop_system_message body.messages).2.length > 1
  · rw [if_pos hlen] at hm
    dsimp only at hm
    rw [if_pos (build_context_ne_empty _)] at hm
    rcases List.mem_append.mp hm with hm1 | hm2
    · simpa using hm1
    · have hmem : m ∈ (pop_system_message body.messages).2 :=
        List.drop_subset _ _ hm2
      exact absurd hrole (pop_system_message_no_system _ _ hmem)
  · rw [if_neg hlen] at hm
    exact absurd hrole (pop_system_message_no_system _ _ hm)

/-- Witness for the system-message-stripping theorem: the extracted
message of the concrete body is its system message, no survivor has
the system role, and the only system message submitted is the
synthetic one. -/
theorem system_message_stripped_witness :
    (pop_system_message bodyW.messages).1 =
      bodyW.messages.find? (fun m => m.role == "system") ∧
    ¬ (⟨"user", "hi", none, []⟩ : Msg).role = "system" :=
  ⟨(system_message_stripped bodyW.messages).1,
   (system_message_stripped bodyW.messages).2.2.1 ⟨"user", "hi", none, []⟩ (by decide)⟩

/-- C10 counterexample: the request `tcNoQueryUnknown` decodes to a
JSON object lacking the `query` key, yet its handling does not raise:
the loop appends an error-text tool reply for it and the run still
makes a second model call — so a missing `query` key is not, by
itself, fatal (it is never looked up for an unrecognized tool). -/
theorem decode_failure_counterexample :
    (toolPhase envA [tcNoQueryUnknown]).err = none ∧
    (toolPhase envA [tcNoQueryUnknown]).toolMessages =
      [toolReply "call_9" ("Unknown tool: magic_tool")] ∧
    (call_openrouter_with_tools envA respNoQueryUnknown respFinal [] []).modelCalls.length =
      2 := by
  refine ⟨by decide, by decide, by decide⟩

/-- C10 amended: an argument-decode failure is fatal for the run
exactly when `json.loads` raises, or when the decoded object lacks the
`query` key while the tool name is recognized and the Exa key is
present (the `query` lookup never runs for an unrecognized tool or a
missing credential): the exception escapes the per-tool handling, no
tool reply is appended for that or any later request, no second model
call is made, and the run's text becomes a formatted error string
while the citations accumulated before the failure are kept. -/
theorem decode_failure_fatal (env : Env) (resp1 resp2 : ModelResponse)
    (messages : List Msg) (all_citations : List Citation)
    (pre post : List ToolCall) (tc : ToolCall)
    (hsplit : resp1.tool_calls = pre ++ tc :: post)
    (hpre : (toolPhase env pre).err = none)
    (hfail : tc.args = .invalid ∨
             (tc.args = .object none ∧
              (tc.name = "exa_answer_search" ∨ tc.name = "exa_context_search") ∧
              env.exaKeyPresent = true)) :
    ∃ e, processToolCall env tc = .error e ∧
      (toolPhase env resp1.tool_calls).toolMessages = (toolPhase env pre).toolMessages ∧
      (call_openrouter_with_tools env resp1 resp2 messages all_citations).modelCalls =
        [⟨messages, true⟩] ∧
      (call_openrouter_with_tools env resp1 resp2 messages all_citations).text =
        "Error: " ++ e ∧
      (call_openrouter_with_tools env resp1 resp2 messages all_citations).citations =
        all_citations ++ (toolPhase env pre).citations := by
  have hT : resp1.tool_calls ≠ [] := by
    rw [hsplit]; simp
  obtain ⟨e, he⟩ : ∃ e, processToolCall env tc = .error e := by
    rcases hfail with hinv | ⟨hobj, hname, hkey⟩
    · refine ⟨jsonDecodeErrorStr, ?_⟩
      unfold processToolCall
      rw [hinv]
    · refine ⟨queryKeyErrorStr, ?_⟩
      unfold processToolCall
      rw [hobj]
      dsimp only
      rw [if_pos hname, if_neg (by simp [hkey])]
  have htp := toolPhase_append_error env pre tc post e hpre he
  have hcall : call_openrouter_with_tools env resp1 resp2 messages all_citations =
      ⟨"Error: " ++ e, all_citations ++ (toolPhase env pre).citations,
       [⟨messages, true⟩], (toolPhase env pre).invocations⟩ := by
    unfold call_openrouter_with_tools
    rw [if_neg hT]
    dsimp only
    rw [hsplit, htp]
  refine ⟨e, he, ?_, ?_, ?_, ?_⟩
  · rw [hsplit, htp]
  · rw [hcall]
  · rw [hcall]
  · rw [hcall]

/-- Witness for the fatal-decode theorem at a concrete run whose only
request has a malformed arguments payload. -/
theorem decode_failure_fatal_witness :
    ∃ e, processToolCall envA tcBadArgs = Except.error e ∧
      (toolPhase envA respBad.tool_calls).toolMessages =
        (toolPhase envA ([] : List ToolCall)).toolMessages ∧
      (call_openrouter_with_tools envA respBad respFinal [] []).modelCalls =
        [⟨[], true⟩] ∧
      (call_openrouter_with_tools envA respBad respFinal [] []).text = "Error: " ++ e ∧
      (call_openrouter_with_tools envA respBad respFinal [] []).citations =
        [] ++ (toolPhase envA ([] : List ToolCall)).citations :=
  decode_failure_fatal envA respBad respFinal [] [] [] [] tcBadArgs rfl rfl (Or.inl rfl)

end ExaPipe
